import Mathlib

/-!
Formal model of the sol-hunter service, a shallow embedding of the two
source files src/loop.py and src/app.py.

Modelling conventions:
- Python dict fields read with .get are modelled as Option-valued structure
  fields; the Python idiom `x or default` on strings is modelled explicitly
  (None and the empty string are falsy).
- Numeric JSON values (Python floats) are embedded as exact rationals; the
  transcendental scoring arithmetic (math.log10 over floats) is embedded
  over the real numbers.
- Python's round (round-half-to-even on floats) is modelled by pyRound.
- Redis is the external store: the candidates sorted set is a list of
  (member, score) pairs held in descending score order, string keys are a
  lookup function, and json.loads is an abstract parse parameter that can
  fail.
- The upstream Dexscreener response is an input: `none` models a request or
  JSON-decoding exception, `some pairs` a decoded list of pair records.
-/

/-- Python `str.upper()` restricted to the ASCII range, as applied to token
symbols in loop.py. -/
def pyUpper (s : String) : String := String.mk (s.data.map Char.toUpper)

/-- Python truthiness of an optional string: `None` and `""` are falsy. -/
def pyTruthy (o : Option String) : Bool :=
  match o with
  | none => false
  | some s => !s.isEmpty

/-- Python `a or dflt` for an optional string `a`: the default is taken when
`a` is `None` or empty. -/
def pyStrOr (o : Option String) (dflt : String) : String :=
  match o with
  | none => dflt
  | some s => if s.isEmpty then dflt else s

open Classical in
/-- Python 3 `round` on a real argument: round half to even, the nearest
integer otherwise. Used by `int(round(raw))` in loop.py and `round(...)`
in app.py. -/
noncomputable def pyRound (x : ℝ) : ℤ :=
  if Int.fract x < 1/2 then ⌊x⌋
  else if 1/2 < Int.fract x then ⌊x⌋ + 1
  else if ⌊x⌋ % 2 = 0 then ⌊x⌋ else ⌊x⌋ + 1

theorem pyRound_intCast (n : ℤ) : pyRound (n : ℝ) = n := by
  unfold pyRound
  rw [Int.fract_intCast, Int.floor_intCast, if_pos (by norm_num : (0:ℝ) < 1/2)]

theorem pyRound_floor_le (x : ℝ) : ⌊x⌋ ≤ pyRound x := by
  unfold pyRound; split_ifs <;> omega

theorem pyRound_le_floor_add_one (x : ℝ) : pyRound x ≤ ⌊x⌋ + 1 := by
  unfold pyRound; split_ifs <;> omega

theorem pyRound_mono {x y : ℝ} (h : x ≤ y) : pyRound x ≤ pyRound y := by
  rcases lt_or_le ⌊x⌋ ⌊y⌋ with hf | hf
  · have h1 := pyRound_le_floor_add_one x
    have h2 := pyRound_floor_le y
    omega
  · have hfe : ⌊x⌋ = ⌊y⌋ := le_antisymm (Int.floor_mono h) hf
    have hfr : Int.fract x ≤ Int.fract y := by
      unfold Int.fract
      rw [hfe]
      linarith
    unfold pyRound
    rw [hfe]
    split_ifs <;> first | omega | (exfalso; linarith)

/-- One side of a raw Dexscreener pair record: `baseToken` / `quoteToken`
objects, fields read with .get so either may be missing. -/
structure Token where
  address : Option String
  symbol : Option String
deriving DecidableEq

/-- A raw pair record from the Dexscreener response, restricted to the
fields the two source files consume. `liqUsd` embeds `liquidity.usd`,
`vol24` embeds `volume.h24`, `buys1h`/`sells1h` embed `txns.h1.buys/sells`;
a missing or unparseable field is `none` (both sources coerce that to 0). -/
structure RawPair where
  chainId : Option String
  baseToken : Option Token
  quoteToken : Option Token
  liqUsd : Option ℚ
  vol24 : Option ℚ
  buys1h : Option ℤ
  sells1h : Option ℤ
  url : Option String
deriving DecidableEq

/-- The shared scoring expression of loop.py's `_score_pool` and app.py's
composite score:
`log10(max(liq,1))*40 + log10(max(vol,1))*40 + max(min(net,50),-50)/50*20`. -/
noncomputable def scoreCore (liq vol : ℚ) (net : ℤ) : ℝ :=
  Real.logb 10 (max (liq : ℝ) 1) * 40 + Real.logb 10 (max (vol : ℝ) 1) * 40
    + ((max (min net 50) (-50) : ℤ) : ℝ) / 50 * 20

/-- Round and clamp a raw score into `[1, hi]`: `max(1, min(hi, round(x)))`. -/
noncomputable def clampScore (hi : ℤ) (x : ℝ) : ℤ :=
  max 1 (min hi (pyRound x))

/-- loop.py `_score_pool`, as a function of the four statistics it reads
from the pool record: clamp range 1..100. -/
noncomputable def score_pool_stats (liq vol : ℚ) (buys sells : ℤ) : ℤ :=
  clampScore 100 (scoreCore liq vol (buys - sells))

/-- loop.py `_score_pool` applied to the pool dict carried in a best-pool
object: reads liquidity.usd, volume.h24 and txns.h1 with default 0. -/
noncomputable def score_pool (p : RawPair) : ℤ :=
  score_pool_stats (p.liqUsd.getD 0) (p.vol24.getD 0) (p.buys1h.getD 0) (p.sells1h.getD 0)

/-- app.py `fetch_best_pair_for_mint`'s crude composite score:
same formula as `_score_pool` but clamped to 1..500 and taking the already
computed net flow. -/
noncomputable def appComposite (liq vol : ℚ) (net : ℤ) : ℤ :=
  clampScore 500 (scoreCore liq vol net)

theorem clampScore_mono (hi : ℤ) {x y : ℝ} (h : x ≤ y) :
    clampScore hi x ≤ clampScore hi y :=
  max_le_max le_rfl (min_le_min le_rfl (pyRound_mono h))

theorem logb_max_one_mono (x y : ℚ) (h : x ≤ y) :
    Real.logb 10 (max (x:ℝ) 1) ≤ Real.logb 10 (max (y:ℝ) 1) := by
  have h1 : (0:ℝ) < max (x:ℝ) 1 := lt_of_lt_of_le one_pos (le_max_right _ _)
  exact Real.logb_le_logb_of_le (by norm_num) h1 (max_le_max (by exact_mod_cast h) le_rfl)

theorem scoreCore_mono_liq {l l' v : ℚ} (n : ℤ) (h : l ≤ l') :
    scoreCore l v n ≤ scoreCore l' v n := by
  unfold scoreCore
  have := logb_max_one_mono l l' h
  gcongr

theorem scoreCore_mono_vol {l v v' : ℚ} (n : ℤ) (h : v ≤ v') :
    scoreCore l v n ≤ scoreCore l v' n := by
  unfold scoreCore
  have := logb_max_one_mono v v' h
  gcongr

theorem logb_50000_mul_200000 : Real.logb 10 50000 + Real.logb 10 200000 = 10 := by
  rw [← Real.logb_mul (by norm_num) (by norm_num)]
  rw [show ((50000:ℝ) * 200000) = 10 ^ (10:ℕ) by norm_num]
  rw [Real.logb_pow, Real.logb_self_eq_one (by norm_num)]
  norm_num

theorem scoreCore_scenario : scoreCore 50000 200000 20 = 408 := by
  unfold scoreCore
  rw [show max (((50000:ℚ)):ℝ) 1 = 50000 by norm_num,
    show max (((200000:ℚ)):ℝ) 1 = 200000 by norm_num,
    show (max (min (20:ℤ) 50) (-50)) = 20 by decide]
  have h := logb_50000_mul_200000
  push_cast
  linarith

theorem scoreCore_zero : scoreCore 0 0 0 = 0 := by
  unfold scoreCore
  rw [show max (((0:ℚ)):ℝ) 1 = 1 by norm_num,
    show (max (min (0:ℤ) 50) (-50)) = 0 by decide]
  rw [Real.logb_one]
  norm_num

theorem clampScore_bounds (hi : ℤ) (hhi : 1 ≤ hi) (x : ℝ) :
    1 ≤ clampScore hi x ∧ clampScore hi x ≤ hi := by
  unfold clampScore
  constructor
  · exact le_max_left _ _
  · exact max_le hhi (min_le_left _ _)

/-- loop.py `_pick_best_pool_for_mint`, normalization of one pair record:
base and quote are swapped when the uppercased base symbol is "SOL" and the
uppercased quote symbol is not, so that the traded coin is base. Missing
`baseToken` / `quoteToken` objects default to empty dicts. -/
def normalizeSides (p : RawPair) : Token × Token :=
  let base := p.baseToken.getD ⟨none, none⟩
  let quote := p.quoteToken.getD ⟨none, none⟩
  let bSym := pyUpper (base.symbol.getD "")
  let qSym := pyUpper (quote.symbol.getD "")
  if bSym = "SOL" ∧ qSym ≠ "SOL" then (quote, base) else (base, quote)

/-- The best-pool summary dict built by loop.py `_pick_best_pool_for_mint`. -/
structure LoopBest where
  pool : RawPair
  liqUsd : ℚ
  symbol : String
  dexUrl : String
deriving DecidableEq

/-- One iteration of loop.py `_pick_best_pool_for_mint`'s selection loop.
The accumulator is the pair (best, best_liq), initially (None, 0.0); a pool
is considered only if it is on Solana and its normalized base address is the
requested mint, and it replaces the current best exactly when its liquidity
is strictly greater. -/
def pickStep (mint : String) (acc : Option LoopBest × ℚ) (p : RawPair) :
    Option LoopBest × ℚ :=
  if p.chainId ≠ some "solana" then acc
  else
    let bq := normalizeSides p
    if bq.1.address ≠ some mint then acc
    else
      let liq := p.liqUsd.getD 0
      if acc.2 < liq then (some ⟨p, liq, pyStrOr bq.1.symbol "UNK", pyStrOr p.url ""⟩, liq)
      else acc

/-- loop.py `_pick_best_pool_for_mint`: `none` models a requests/JSON
exception (`resp = none`) or an empty/missing `pairs` array, otherwise the
fold above selects the best pool. -/
def pick_best_pool_for_mint (resp : Option (List RawPair)) (mint : String) :
    Option LoopBest :=
  match resp with
  | none => none
  | some pairs =>
    if pairs.isEmpty then none
    else (pairs.foldl (pickStep mint) (none, 0)).1

/-- One execution-guidance block from loop.py `_build_execution_blocks`. -/
structure ExecBlock where
  router : String
  supported : Bool
  slippagePct : ℚ
  positionPct : ℚ
  instructions : List String
deriving DecidableEq

/-- The pair of execution-guidance blocks returned by loop.py
`_build_execution_blocks`; `axBlock` embeds the "axiom" entry and
`jupiterBlock` the "jupiter" entry of the returned dict. -/
structure ExecBlocks where
  axBlock : ExecBlock
  jupiterBlock : ExecBlock
deriving DecidableEq

/-- loop.py `_build_execution_blocks`: the Axiom route is supported iff
liquidity_usd > 0, Jupiter iff liquidity_usd >= 2000. -/
def build_execution_blocks (liquidity_usd : ℚ) : ExecBlocks :=
  { axBlock :=
      { router := "Axiom"
      , supported := decide (0 < liquidity_usd)
      , slippagePct := 5
      , positionPct := 0.0075
      , instructions :=
          ["Open Axiom", "Search for pair_hint", "Set slippage to 5.0%",
           "Size ~0.75% of bankroll (position_pct)",
           "Add priority fee if volume is spiking"] }
  , jupiterBlock :=
      { router := "Jupiter"
      , supported := decide (2000 ≤ liquidity_usd)
      , slippagePct := 1.2
      , positionPct := 0.0075
      , instructions :=
          ["Open Jupiter", "Paste the mint",
           "Check that route is normal (no insane slippage)",
           "If slippage > ~2-3% or route looks broken, do not trade here"] } }

/-- loop.py `evaluate`'s pair hint: `dex_url.rsplit("/", 1)[-1]` when the
url contains a slash, else the url itself (the last slash-separated
segment in both cases). -/
def pairHintOfUrl (s : String) : String :=
  if s.contains '/' then (s.splitOn "/").getLastD s else s

/-- The card returned by loop.py `evaluate`, with the nested JSON flattened
into one record (token.*, score.total, market.*, execution, exits.*). -/
structure LoopCard where
  symbol : String
  mint : String
  decimals : ℕ
  scoreTotal : ℤ
  liquidityUsd : ℚ
  dexUrl : String
  pairHint : String
  risk : List String
  asof : String
  execution : ExecBlocks
  tpLevelsPct : List ℕ
  tpAllocsPct : List ℕ
  invalidationDropPct : ℕ

/-- loop.py `evaluate` (GET /evaluate): 404 when `_pick_best_pool_for_mint`
returns None, otherwise the assembled card. `now` stands for the wall-clock
`datetime.now(timezone.utc).isoformat()` string. -/
noncomputable def loop_evaluate (resp : Option (List RawPair)) (mint : String)
    (now : String) : Except ℕ LoopCard :=
  match pick_best_pool_for_mint resp mint with
  | none => Except.error 404
  | some b =>
    Except.ok
      { symbol := b.symbol
      , mint := mint
      , decimals := 9
      , scoreTotal := score_pool b.pool
      , liquidityUsd := b.liqUsd
      , dexUrl := b.dexUrl
      , pairHint := pairHintOfUrl b.dexUrl
      , risk := if b.liqUsd < 1000 then ["THIN_POOL_HIGH_RUG_RISK"] else []
      , asof := now
      , execution := build_execution_blocks b.liqUsd
      , tpLevelsPct := [50, 100, 200]
      , tpAllocsPct := [25, 50, 25]
      , invalidationDropPct := 25 }

/-- A pair record annotated by app.py `fetch_best_pair_for_mint` with the
convenience fields `_liq_usd`, `_base`, `_quote`, `_score`, `_url`. -/
structure Scored where
  pair : RawPair
  liqUsd : ℚ
  base : Token
  quote : Token
  score : ℤ
  url : String

/-- One iteration of app.py `fetch_best_pair_for_mint`'s filter loop over
the state (good, seen): keep Solana pairs with a nonempty base address that
was not seen before and positive liquidity; note that the base address is
added to `seen` before the liquidity gate, so a zero-liquidity first
occurrence still claims the address. -/
noncomputable def appStep (st : List Scored × List String) (p : RawPair) :
    List Scored × List String :=
  if p.chainId ≠ some "solana" then st
  else
    let base := p.baseToken.getD ⟨none, none⟩
    let quote := p.quoteToken.getD ⟨none, none⟩
    match base.address with
    | none => st
    | some a =>
      if a.isEmpty then st
      else if a ∈ st.2 then st
      else
        let seen := a :: st.2
        let liq := p.liqUsd.getD 0
        if liq ≤ 0 then (st.1, seen)
        else
          let vol := p.vol24.getD 0
          let net := p.buys1h.getD 0 - p.sells1h.getD 0
          (st.1 ++ [⟨p, liq, base, quote, appComposite liq vol net, pyStrOr p.url ""⟩],
           seen)

/-- The `good` list accumulated by app.py `fetch_best_pair_for_mint`. -/
noncomputable def appGood (pairs : List RawPair) : List Scored :=
  (pairs.foldl appStep ([], [])).1

/-- The comparison used by `good.sort(key=lambda x: x["_score"], reverse=True)`:
descending composite score. -/
noncomputable def scoreDescBool (a b : Scored) : Bool := decide (b.score ≤ a.score)

/-- app.py `fetch_best_pair_for_mint`: `none` on a fetch/JSON failure or
when no pair survives the filter, otherwise the head of the good list
sorted by descending composite score (`good[0]`). -/
noncomputable def fetch_best_pair_for_mint (resp : Option (List RawPair)) :
    Option Scored :=
  match resp with
  | none => none
  | some pairs =>
    let good := appGood pairs
    if good.isEmpty then none
    else (good.mergeSort scoreDescBool).head?

/-- The response dict of app.py `build_evaluate_response`, flattened:
token.*, score.total, market.*, execution.axiom/jupiter (here `axSupported`,
`axSlippagePct` embed the "axiom" block), exits.*. -/
structure AppCard where
  symbol : String
  mint : String
  decimals : ℕ
  scoreTotal : ℤ
  liquidityUsd : ℚ
  pairHint : String
  dexUrl : String
  risk : List String
  asof : String
  axSupported : Bool
  axSlippagePct : ℚ
  jupiterSupported : Bool
  jupiterSlippagePct : ℚ
  tpLevelsPct : List ℕ
  tpAllocsPct : List ℕ
  invalidationDropPct : ℕ

/-- app.py `build_evaluate_response`. -/
def build_evaluate_response (mint symbol : String) (liquidity_usd : ℚ)
    (dex_url pair_hint : String) (score_total : ℤ) (risk_flags : List String)
    (ax_ok jup_ok : Bool) (ax_slip jup_slip : ℚ) (now_iso : String) : AppCard :=
  { symbol := symbol
  , mint := mint
  , decimals := 9
  , scoreTotal := score_total
  , liquidityUsd := liquidity_usd
  , pairHint := pair_hint
  , dexUrl := dex_url
  , risk := risk_flags
  , asof := now_iso
  , axSupported := ax_ok
  , axSlippagePct := ax_slip
  , jupiterSupported := jup_ok
  , jupiterSlippagePct := jup_slip
  , tpLevelsPct := [50, 100, 200]
  , tpAllocsPct := [25, 50, 25]
  , invalidationDropPct := 25 }

/-- app.py `evaluate` (GET /evaluate): 404 when `fetch_best_pair_for_mint`
returns None, otherwise the response built from the selected pair with
axiom_ok = liq_usd > 0 and jup_ok = liq_usd >= 2000. -/
noncomputable def app_evaluate (resp : Option (List RawPair)) (mint : String)
    (now_iso : String) : Except ℕ AppCard :=
  match fetch_best_pair_for_mint resp with
  | none => Except.error 404
  | some pr =>
    Except.ok (build_evaluate_response mint (pyStrOr pr.base.symbol "UNK") pr.liqUsd
      pr.url ((pr.quote.symbol.getD "?") ++ " / " ++ (pr.base.symbol.getD "?"))
      pr.score (if pr.liqUsd < 1000 then ["THIN_POOL_HIGH_RUG_RISK"] else [])
      (decide (0 < pr.liqUsd)) (decide (2000 ≤ pr.liqUsd)) 5 1.2 now_iso)

/-- Specification-side predicate mirroring app.py's filter loop: some pair
of the list survives the filter when the scan starts with the given `seen`
set. A pair survives when it is on Solana, has a nonempty base address not
yet seen, and positive liquidity; a Solana pair with a fresh nonempty base
address but non-positive liquidity claims the address for the rest of the
scan. -/
def survivorFrom (seen : List String) : List RawPair → Prop
  | [] => False
  | p :: rest =>
    if p.chainId ≠ some "solana" then survivorFrom seen rest
    else
      match (p.baseToken.getD ⟨none, none⟩).address with
      | none => survivorFrom seen rest
      | some a =>
        if a.isEmpty then survivorFrom seen rest
        else if a ∈ seen then survivorFrom seen rest
        else if p.liqUsd.getD 0 ≤ 0 then survivorFrom (a :: seen) rest
        else True

/-- Specification-side predicate for loop.py `evaluate`: a pair qualifies
for the requested mint when it is on Solana, its normalized base address is
the mint, and its liquidity is positive. -/
def loopQualifies (mint : String) (p : RawPair) : Prop :=
  p.chainId = some "solana" ∧ (normalizeSides p).1.address = some mint
    ∧ 0 < p.liqUsd.getD 0

/-- Redis ZREVRANGE over the member list of a sorted set held in descending
score order: indices start..stop inclusive, negative indices counting from
the end, out-of-range indices clamped, an inverted range giving []. -/
def zrevrange (l : List String) (start stop : ℤ) : List String :=
  let n : ℤ := l.length
  let s : ℤ := if start < 0 then max (n + start) 0 else start
  let e : ℤ := if stop < 0 then n + stop else min stop (n - 1)
  if e < s then [] else (l.drop s.toNat).take (e - s + 1).toNat

/-- The body of loop.py `scan`'s per-mint loop: skip mints starting with
"DUMMY", skip a missing or empty card string (`if not raw`), and skip a
card that fails to parse. `cards` models Redis string GET and `parseCard`
models `json.loads` returning a card value of type α or failing. -/
def scanStep {α : Type} (cards : String → Option String)
    (parseCard : String → Option α) (m : String) : Option α :=
  if m.startsWith "DUMMY" then none
  else
    match cards ("card:" ++ m) with
    | none => none
    | some raw => if raw.isEmpty then none else parseCard raw

/-- loop.py `scan` (GET /scan): `zrevrange("candidates", 0, limit - 1)`
over the ranking set, then the surviving cards in that order. `zset` is the
candidates sorted set as stored by Redis (members with scores, descending).
-/
def scan {α : Type} (zset : List (String × ℚ)) (cards : String → Option String)
    (parseCard : String → Option α) (limit : ℤ) : List α :=
  (zrevrange (zset.map Prod.fst) 0 (limit - 1)).filterMap (scanStep cards parseCard)

/-- The score a member holds in the candidates sorted set (0 for a member
that is not present; members of a Redis sorted set are unique). -/
def scoreOf (zset : List (String × ℚ)) (m : String) : ℚ :=
  ((zset.find? (fun e => e.1 == m)).map Prod.snd).getD 0

/-- The body of loop.py `health` (GET /health), flattened: env.* plus the
two freshness markers. -/
structure HealthResp where
  heliusConfigured : Bool
  upstashRedisUrlConfigured : Bool
  scanSeq : ℤ
  lastUpdateMs : ℤ
deriving DecidableEq

/-- `int(x) if x else 0` on an optional marker string: 0 when the key is
absent or its value empty, otherwise Python `int` (modelled by `toInt`). -/
def intOfMarker (o : Option String) (toInt : String → ℤ) : ℤ :=
  match o with
  | none => 0
  | some s => if s.isEmpty then 0 else toInt s

/-- loop.py `health`: env flags are Python truthiness of `os.getenv`, where
`redisUrl` is the module constant REDIS_URL (getenv with a non-empty
literal default); `seq` and `last` are `r.get("scan_seq")` and
`r.get("last_update_ms")`. -/
def health (heliusEnv redisEnv : Option String) (redisUrl : String)
    (seq last : Option String) (toInt : String → ℤ) : HealthResp :=
  { heliusConfigured := pyTruthy heliusEnv
  , upstashRedisUrlConfigured := !(pyStrOr redisEnv redisUrl).isEmpty
  , scanSeq := intOfMarker seq toInt
  , lastUpdateMs := intOfMarker last toInt }

/-- The dummy card written by app.py `feeder`, flattened (token.*,
why_now, score.total, plan.*, exits.*, ops.*). -/
structure FeederCard where
  symbol : String
  mint : String
  decimals : ℕ
  whyNow : List String
  scoreTotal : ℤ
  planPositionPct : ℚ
  planMaxSlippagePct : ℚ
  planExpectedImpactPct : ℚ
  planRouter : String
  tpLevelsPct : List ℕ
  tpAllocsPct : List ℕ
  invalidationDropPct : ℕ
  preTradeChecks : List String
  postTrade : List String
deriving DecidableEq

/-- The write set of one iteration of app.py `feeder`: the card stored at
card:{mint} and the (member, score) upsert into the candidates sorted set.
`s` is the draw `random.randint(70, 95)` and `t` is `int(time.time())`, so
the mint is "DUMMY" followed by the timestamp. -/
def feederCycleWrites (s t : ℤ) : FeederCard × (String × ℤ) :=
  let mint := "DUMMY" ++ toString t
  ({ symbol := "FAKE"
   , mint := mint
   , decimals := 9
   , whyNow := ["buyers up", "lp locked", "route stable"]
   , scoreTotal := s
   , planPositionPct := 0.0075
   , planMaxSlippagePct := 1.2
   , planExpectedImpactPct := 1.3
   , planRouter := "Jupiter"
   , tpLevelsPct := [50, 100, 200]
   , tpAllocsPct := [25, 50, 25]
   , invalidationDropPct := 25
   , preTradeChecks := ["dust_ok"]
   , postTrade := ["journal"] },
   (mint, s))

/-- Claim C1: for liquidity=50000, volume24h=200000, buys1h=30, sells1h=10
the Scorer's raw formula 40*log10(max(liq,1)) + 40*log10(max(vol,1)) +
20*clamp(buys-sells,-50,50)/50 evaluates to 408, and the 1..100 clamp of
loop.py's `_score_pool` takes it to the upper bound 100. -/
theorem c1_scorer_scenario_408_clamped_to_100 :
    pyRound (scoreCore 50000 200000 (30 - 10)) = 408
      ∧ score_pool
          { chainId := some "solana", baseToken := none, quoteToken := none,
            liqUsd := some 50000, vol24 := some 200000, buys1h := some 30,
            sells1h := some 10, url := none } = 100 := by
  have h2030 : ((30:ℤ) - 10) = 20 := by norm_num
  have h408 : pyRound (scoreCore 50000 200000 20) = 408 := by
    rw [scoreCore_scenario, show (408:ℝ) = ((408:ℤ):ℝ) by norm_num]
    exact pyRound_intCast 408
  refine ⟨by rw [h2030]; exact h408, ?_⟩
  show clampScore 100 (scoreCore ((some (50000:ℚ)).getD 0) ((some (200000:ℚ)).getD 0)
    ((some (30:ℤ)).getD 0 - (some (10:ℤ)).getD 0)) = 100
  simp only [Option.getD_some]
  unfold clampScore
  rw [h2030, h408]
  decide

/-- Claim C2: both scorers return an integer inside their clamp range for
every input, and for liquidity=0, volume=0, buys=sells=0 the result is the
lower bound 1 (loop.py `_score_pool` clamps to 1..100, app.py's composite
to 1..500). -/
theorem c2_scorer_always_in_clamp_range :
    (∀ (l v : ℚ) (b s : ℤ),
        1 ≤ score_pool_stats l v b s ∧ score_pool_stats l v b s ≤ 100)
      ∧ (∀ (l v : ℚ) (n : ℤ), 1 ≤ appComposite l v n ∧ appComposite l v n ≤ 500)
      ∧ score_pool_stats 0 0 0 0 = 1 ∧ appComposite 0 0 0 = 1 := by
  have hzero : ∀ hi : ℤ, clampScore hi (scoreCore 0 0 0) = max 1 (min hi 0) := by
    intro hi
    unfold clampScore
    rw [scoreCore_zero, show (0:ℝ) = ((0:ℤ):ℝ) by norm_num, pyRound_intCast]
  refine ⟨fun l v b s => clampScore_bounds 100 (by norm_num) _,
    fun l v n => clampScore_bounds 500 (by norm_num) _, ?_, ?_⟩
  · show clampScore 100 (scoreCore 0 0 (0 - 0)) = 1
    rw [show ((0:ℤ) - 0) = 0 by norm_num, hzero]
    decide
  · show clampScore 500 (scoreCore 0 0 0) = 1
    rw [hzero]
    decide

/-- Claim C3: both scorers are monotone non-decreasing in liquidity and in
volume with the other inputs held fixed. -/
theorem c3_scorer_monotone_in_liquidity_and_volume :
    (∀ (l l' v : ℚ) (b s : ℤ), l ≤ l' →
        score_pool_stats l v b s ≤ score_pool_stats l' v b s)
      ∧ (∀ (l v v' : ℚ) (b s : ℤ), v ≤ v' →
        score_pool_stats l v b s ≤ score_pool_stats l v' b s)
      ∧ (∀ (l l' v : ℚ) (n : ℤ), l ≤ l' → appComposite l v n ≤ appComposite l' v n)
      ∧ (∀ (l v v' : ℚ) (n : ℤ), v ≤ v' → appComposite l v n ≤ appComposite l v' n) :=
  ⟨fun _ _ _ b s h => clampScore_mono 100 (scoreCore_mono_liq (b - s) h),
   fun _ _ _ b s h => clampScore_mono 100 (scoreCore_mono_vol (b - s) h),
   fun _ _ _ n h => clampScore_mono 500 (scoreCore_mono_liq n h),
   fun _ _ _ n h => clampScore_mono 500 (scoreCore_mono_vol n h)⟩

/-- Witness for C3 at concrete inputs. -/
theorem c3_scorer_monotone_witness :
    score_pool_stats 1 5 2 3 ≤ score_pool_stats 10 5 2 3
      ∧ score_pool_stats 1 5 2 3 ≤ score_pool_stats 1 50 2 3
      ∧ appComposite 1 5 2 ≤ appComposite 10 5 2
      ∧ appComposite 1 5 2 ≤ appComposite 1 50 2 :=
  ⟨c3_scorer_monotone_in_liquidity_and_volume.1 1 10 5 2 3 (by norm_num),
   c3_scorer_monotone_in_liquidity_and_volume.2.1 1 5 50 2 3 (by norm_num),
   c3_scorer_monotone_in_liquidity_and_volume.2.2.1 1 10 5 2 (by norm_num),
   c3_scorer_monotone_in_liquidity_and_volume.2.2.2 1 5 50 2 (by norm_num)⟩

/-- Claim C4: when the raw pair's base symbol uppercases to the reference
currency symbol "SOL" and the quote symbol does not, loop.py's normalization
swaps the two sides, so the quote token becomes the asset of interest whose
address is then compared against the requested mint. -/
theorem c4_normalizer_swaps_sol_base (p : RawPair) (base quote : Token)
    (hb : p.baseToken = some base) (hq : p.quoteToken = some quote)
    (hbs : pyUpper (base.symbol.getD "") = "SOL")
    (hqs : pyUpper (quote.symbol.getD "") ≠ "SOL") :
    normalizeSides p = (quote, base) := by
  simp only [normalizeSides, hb, hq, Option.getD_some]
  rw [if_pos ⟨hbs, hqs⟩]

/-- Witness for C4 at a concrete record with base symbol "SOL" and quote
symbol "WIF". -/
theorem c4_normalizer_swaps_sol_base_witness :
    normalizeSides
        { chainId := some "solana",
          baseToken := some ⟨some "So11111111111111111111111111111111111111112",
            some "SOL"⟩,
          quoteToken := some ⟨some "MintQQQ", some "WIF"⟩,
          liqUsd := some 7, vol24 := none, buys1h := none, sells1h := none,
          url := none }
      = (⟨some "MintQQQ", some "WIF"⟩,
         ⟨some "So11111111111111111111111111111111111111112", some "SOL"⟩) :=
  c4_normalizer_swaps_sol_base _ _ _ rfl rfl (by decide) (by decide)

theorem isEmpty_false_iff (s : String) : s.isEmpty = false ↔ s ≠ "" := by
  constructor
  · intro h heq
    rw [heq] at h
    exact absurd h (by decide)
  · intro h
    cases hemp : s.isEmpty
    · rfl
    · exact absurd ((String.isEmpty_iff s).mp hemp) h

/-- Claim C9: the health endpoint reports whether the credentials are
configured (Python truthiness of the environment values) and, before any
feed cycle has run (both markers absent from the store), a cycle counter
and last-write timestamp of 0. -/
theorem c9_health_reports_flags_and_zero_markers
    (heliusEnv redisEnv : Option String) (redisUrl : String)
    (toInt : String → ℤ) :
    (health heliusEnv redisEnv redisUrl none none toInt).scanSeq = 0
      ∧ (health heliusEnv redisEnv redisUrl none none toInt).lastUpdateMs = 0
      ∧ ((health heliusEnv redisEnv redisUrl none none toInt).heliusConfigured = true
          ↔ ∃ s, heliusEnv = some s ∧ s ≠ "")
      ∧ ((health heliusEnv redisEnv redisUrl none none toInt).upstashRedisUrlConfigured
            = true ↔ pyStrOr redisEnv redisUrl ≠ "") := by
  refine ⟨rfl, rfl, ?_, ?_⟩
  · show pyTruthy heliusEnv = true ↔ _
    cases heliusEnv with
    | none => simp [pyTruthy]
    | some s =>
      simp only [pyTruthy, Bool.not_eq_true']
      rw [isEmpty_false_iff]
      constructor
      · intro h
        exact ⟨s, rfl, h⟩
      · rintro ⟨s', hs', hne⟩
        obtain rfl := Option.some.inj hs'
        exact hne
  · show (!(pyStrOr redisEnv redisUrl).isEmpty) = true ↔ _
    rw [Bool.not_eq_true']
    exact isEmpty_false_iff _

/-- Claim C8 counterexample: the feeder cycle in src/app.py consults no
upstream input at all; two runs at the same wall-clock second with
different draws of `random.randint(70, 95)` write a different card and a
different rank entry, so the write set is not a function of the upstream
input alone. -/
theorem c8_feeder_cycle_random_counterexample :
    feederCycleWrites 70 1000 ≠ feederCycleWrites 95 1000
      ∧ feederCycleWrites 70 1000 ≠ feederCycleWrites 70 2000 := by
  constructor <;> decide

/-- Claim C8 (amended): one feeder cycle's write set (CandidateCard and
rank entry) is a deterministic function of the random score draw and the
clock reading, not of any upstream input: two runs with equal draw and
equal timestamp write the identical card and rank, and the rank entry is
exactly ("DUMMY" ++ timestamp, draw), making the output draw- and
timestamp-sensitive. -/
theorem c8_feeder_cycle_deterministic_in_draw_and_time :
    (∀ s t s' t' : ℤ, s = s' → t = t' →
        feederCycleWrites s t = feederCycleWrites s' t')
      ∧ (∀ s t : ℤ, (feederCycleWrites s t).2 = ("DUMMY" ++ toString t, s))
      ∧ (∀ s t : ℤ, (feederCycleWrites s t).1.scoreTotal = s
          ∧ (feederCycleWrites s t).1.mint = "DUMMY" ++ toString t) := by
  refine ⟨?_, fun s t => rfl, fun s t => ⟨rfl, rfl⟩⟩
  rintro s t s' t' rfl rfl
  rfl

/-- Witness for the amended C8 at a concrete draw and timestamp. -/
theorem c8_feeder_cycle_deterministic_witness :
    feederCycleWrites 70 1000 = feederCycleWrites 70 1000 :=
  c8_feeder_cycle_deterministic_in_draw_and_time.1 70 1000 70 1000 rfl rfl

theorem filterMap_eq_filterMap_filter {α β : Type} (f : α → Option β) (l : List α) :
    l.filterMap f = (l.filter fun a => (f a).isSome).filterMap f := by
  induction l with
  | nil => rfl
  | cons a l ih =>
    by_cases h : (f a).isSome
    · rcases Option.isSome_iff_exists.mp h with ⟨b, hb⟩
      simp [List.filterMap_cons, List.filter_cons, h, hb, ih]
    · have hnone : f a = none := Option.not_isSome_iff_eq_none.mp h
      simp [List.filterMap_cons, List.filter_cons, h, hnone, ih]

theorem zrevrange_sublist (l : List String) (start stop : ℤ) :
    (zrevrange l start stop).Sublist l := by
  unfold zrevrange
  dsimp only
  split_ifs <;>
    first
    | exact List.nil_sublist l
    | exact (List.take_sublist _ _).trans (List.drop_sublist _ _)

theorem zrevrange_zero_length_le (l : List String) (limit : ℤ) (h : 1 ≤ limit) :
    (zrevrange l 0 (limit - 1)).length ≤ limit.toNat := by
  simp only [zrevrange]
  split_ifs with h1 h2 h3 <;>
    simp [List.length_take, List.drop_zero] <;> omega

theorem scoreOf_of_nodup (zset : List (String × ℚ))
    (hnd : (zset.map Prod.fst).Nodup) :
    ∀ e ∈ zset, scoreOf zset e.1 = e.2 := by
  induction zset with
  | nil => intro e he; cases he
  | cons hd tl ih =>
    have hcons : hd.1 ∉ tl.map Prod.fst ∧ (tl.map Prod.fst).Nodup := by
      rw [List.map_cons] at hnd
      exact List.nodup_cons.mp hnd
    intro e he
    rcases List.mem_cons.mp he with rfl | he'
    · unfold scoreOf
      rw [List.find?_cons_of_pos _ (by simp)]
      rfl
    · have hne : (hd.1 == e.1) = false :=
        beq_eq_false_iff_ne.mpr
          (fun heq => hcons.1 (heq ▸ List.mem_map_of_mem Prod.fst he'))
      have htl : scoreOf tl e.1 = e.2 := ih hcons.2 e he'
      unfold scoreOf at htl ⊢
      rw [List.find?_cons]
      simp only [hne]
      exact htl

/-- Claim C5 counterexample: for the caller-supplied limit 0 the scan calls
zrevrange("candidates", 0, -1), and a Redis stop index of -1 denotes the
last element of the whole ranking set, so a store holding one ranked,
non-synthetic, parseable card yields one returned card: more than the
requested 0. -/
theorem c5_scan_limit_zero_counterexample :
    scan [("AAA", (3:ℚ))]
        (fun k => if k = "card:AAA" then some "cardA" else none)
        (fun s => if s = "cardA" then some 1 else none) 0 = [1]
      ∧ ¬ ((scan [("AAA", (3:ℚ))]
            (fun k => if k = "card:AAA" then some "cardA" else none)
            (fun s => if s = "cardA" then some 1 else none) 0).length ≤ 0) := by
  constructor
  · decide
  · decide

/-- Claim C5 (amended): for every caller-supplied limit N >= 1 and every
store state, the Top-N Scan returns at most N cards, every returned card
comes from a ranked non-synthetic (non-"DUMMY") identifier whose stored
card string is present, non-empty and parses, the output is exactly the
cards of the surviving identifiers in ranking order, and the surviving
identifiers' scores are descending. (For N <= 0 the Redis reverse-range
wraps to a negative end index and can return up to the whole set, so the
bound fails; see the counterexample.) -/
theorem c5_scan_topn_spec {α : Type} (zset : List (String × ℚ))
    (cards : String → Option String) (parseCard : String → Option α) (limit : ℤ)
    (hlim : 1 ≤ limit)
    (hnd : (zset.map Prod.fst).Nodup)
    (hsort : (zset.map Prod.snd).Pairwise (fun a b => b ≤ a)) :
    (scan zset cards parseCard limit).length ≤ limit.toNat
      ∧ (∀ c ∈ scan zset cards parseCard limit,
          ∃ m ∈ zrevrange (zset.map Prod.fst) 0 (limit - 1),
            ¬ m.startsWith "DUMMY" ∧ scanStep cards parseCard m = some c)
      ∧ scan zset cards parseCard limit
          = ((zrevrange (zset.map Prod.fst) 0 (limit - 1)).filter
              (fun m => (scanStep cards parseCard m).isSome)).filterMap
              (scanStep cards parseCard)
      ∧ (((zrevrange (zset.map Prod.fst) 0 (limit - 1)).filter
            (fun m => (scanStep cards parseCard m).isSome)).map (scoreOf zset)).Pairwise
          (fun a b => b ≤ a) := by
  refine ⟨?_, ?_, ?_, ?_⟩
  · exact le_trans (List.length_filterMap_le _ _) (zrevrange_zero_length_le _ _ hlim)
  · intro c hc
    obtain ⟨m, hm, hfm⟩ := List.mem_filterMap.mp hc
    refine ⟨m, hm, ?_, hfm⟩
    intro hdm
    unfold scanStep at hfm
    rw [if_pos hdm] at hfm
    exact Option.noConfusion hfm
  · exact filterMap_eq_filterMap_filter _ _
  · have hsub1 : ((zrevrange (zset.map Prod.fst) 0 (limit - 1)).filter
        (fun m => (scanStep cards parseCard m).isSome)).Sublist (zset.map Prod.fst) :=
      (List.filter_sublist _).trans (zrevrange_sublist _ _ _)
    have hmapsub := hsub1.map (scoreOf zset)
    have heq : (zset.map Prod.fst).map (scoreOf zset) = zset.map Prod.snd := by
      rw [List.map_map]
      exact List.map_congr_left (fun e he => scoreOf_of_nodup zset hnd e he)
    rw [heq] at hmapsub
    exact List.Pairwise.sublist hmapsub hsort

/-- Witness for the amended C5 at a concrete two-candidate store. -/
theorem c5_scan_topn_spec_witness :
    (scan [("AAA", (3:ℚ)), ("BBB", 2)]
        (fun k => if k = "card:AAA" then some "cardA"
          else if k = "card:BBB" then some "cardB" else none)
        (fun s => if s = "cardA" then some 1
          else if s = "cardB" then some 2 else none) 2).length ≤ (2:ℤ).toNat :=
  (c5_scan_topn_spec _ _ _ 2 (by norm_num) (by decide) (by decide)).1

theorem pickStep_fst_some (mint : String) (acc : Option LoopBest × ℚ)
    (p : RawPair) (b : LoopBest) (h : acc.1 = some b) :
    ∃ b', (pickStep mint acc p).1 = some b' := by
  unfold pickStep
  dsimp only
  split_ifs <;> first | exact ⟨b, h⟩ | exact ⟨_, rfl⟩

theorem pickFold_stays_some (mint : String) (pairs : List RawPair) :
    ∀ (acc : Option LoopBest × ℚ) (b : LoopBest), acc.1 = some b →
      ∃ b', (pairs.foldl (pickStep mint) acc).1 = some b' := by
  induction pairs with
  | nil => intro acc b h; exact ⟨b, h⟩
  | cons p rest ih =>
    intro acc b h
    obtain ⟨b', hb'⟩ := pickStep_fst_some mint acc p b h
    rw [List.foldl_cons]
    exact ih _ b' hb'

theorem pickStep_of_not_qual (mint : String) (acc : Option LoopBest × ℚ)
    (p : RawPair) (hacc : acc.1 = none → acc.2 = 0)
    (hq : ¬ loopQualifies mint p) (hnone : acc.1 = none) :
    pickStep mint acc p = acc := by
  have hacc2 : acc.2 = 0 := hacc hnone
  unfold pickStep
  dsimp only
  by_cases h1 : p.chainId ≠ some "solana"
  · rw [if_pos h1]
  · rw [if_neg h1]
    by_cases h2 : (normalizeSides p).1.address ≠ some mint
    · rw [if_pos h2]
    · rw [if_neg h2]
      have hliq : ¬ (acc.2 < p.liqUsd.getD 0) := by
        rw [hacc2]
        intro hl
        exact hq ⟨not_not.mp h1, not_not.mp h2, hl⟩
      rw [if_neg hliq]

theorem pickStep_of_qual (mint : String) (acc : Option LoopBest × ℚ) (p : RawPair)
    (hq : loopQualifies mint p) (hacc2 : acc.2 = 0) :
    pickStep mint acc p
      = (some ⟨p, p.liqUsd.getD 0, pyStrOr (normalizeSides p).1.symbol "UNK",
          pyStrOr p.url ""⟩, p.liqUsd.getD 0) := by
  obtain ⟨h1, h2, h3⟩ := hq
  unfold pickStep
  dsimp only
  rw [if_neg (by simp [h1]), if_neg (by simp [h2]), if_pos (by rw [hacc2]; exact h3)]

theorem pickFold_none_iff (mint : String) (pairs : List RawPair) :
    ∀ acc : Option LoopBest × ℚ, (acc.1 = none → acc.2 = 0) →
      ((pairs.foldl (pickStep mint) acc).1 = none
        ↔ acc.1 = none ∧ ∀ p ∈ pairs, ¬ loopQualifies mint p) := by
  induction pairs with
  | nil =>
    intro acc hacc
    simp
  | cons p rest ih =>
    intro acc hacc
    rw [List.foldl_cons]
    rcases Option.eq_none_or_eq_some acc.1 with hacc1 | ⟨b, hacc1⟩
    · by_cases hq : loopQualifies mint p
      · rw [pickStep_of_qual mint acc p hq (hacc hacc1)]
        obtain ⟨b', hb'⟩ := pickFold_stays_some mint rest
          (some ⟨p, p.liqUsd.getD 0, pyStrOr (normalizeSides p).1.symbol "UNK",
            pyStrOr p.url ""⟩, p.liqUsd.getD 0) _ rfl
        rw [hb']
        exact iff_of_false (by simp)
          (fun h => h.2 p (List.mem_cons_self p rest) hq)
      · rw [pickStep_of_not_qual mint acc p hacc hq hacc1]
        rw [ih acc hacc]
        constructor
        · rintro ⟨h1, h2⟩
          refine ⟨h1, ?_⟩
          intro q hqmem
          rcases List.mem_cons.mp hqmem with rfl | hm
          · exact hq
          · exact h2 q hm
        · rintro ⟨h1, h2⟩
          exact ⟨h1, fun q hm => h2 q (List.mem_cons_of_mem p hm)⟩
    · obtain ⟨b', hb'⟩ := pickFold_stays_some mint (p :: rest) acc b hacc1
      rw [List.foldl_cons] at hb'
      rw [hb']
      exact iff_of_false (by simp)
        (fun h => Option.noConfusion (hacc1.symm.trans h.1))

theorem pick_best_none_iff (resp : Option (List RawPair)) (mint : String) :
    pick_best_pool_for_mint resp mint = none
      ↔ (resp = none ∨ ∀ p ∈ resp.getD [], ¬ loopQualifies mint p) := by
  cases resp with
  | none => simp [pick_best_pool_for_mint]
  | some pairs =>
    unfold pick_best_pool_for_mint
    dsimp only
    by_cases hp : pairs.isEmpty
    · rw [if_pos hp]
      have hnil : pairs = [] := List.isEmpty_iff.mp hp
      subst hnil
      simp
    · rw [if_neg hp]
      rw [pickFold_none_iff mint pairs (none, 0) (fun _ => rfl)]
      simp

theorem pickFold_pos_liq (mint : String) (pairs : List RawPair) :
    ∀ acc : Option LoopBest × ℚ, 0 ≤ acc.2 →
      (∀ b, acc.1 = some b → b.liqUsd = acc.2 ∧ 0 < acc.2) →
      ∀ b, (pairs.foldl (pickStep mint) acc).1 = some b → 0 < b.liqUsd := by
  induction pairs with
  | nil =>
    intro acc h0 hinv b hb
    have h := hinv b hb
    rw [h.1]
    exact h.2
  | cons p rest ih =>
    intro acc h0 hinv b hb
    rw [List.foldl_cons] at hb
    have hstep : 0 ≤ (pickStep mint acc p).2 ∧
        (∀ b', (pickStep mint acc p).1 = some b' →
          b'.liqUsd = (pickStep mint acc p).2 ∧ 0 < (pickStep mint acc p).2) := by
      unfold pickStep
      dsimp only
      split_ifs with h1 h2 h3
      · exact ⟨h0, hinv⟩
      · exact ⟨h0, hinv⟩
      · refine ⟨le_of_lt (lt_of_le_of_lt h0 h3), ?_⟩
        rintro b' hb'
        obtain rfl := Option.some.inj hb'
        exact ⟨rfl, lt_of_le_of_lt h0 h3⟩
      · exact ⟨h0, hinv⟩
    exact ih _ hstep.1 hstep.2 b hb

theorem pick_best_pos_liq (resp : Option (List RawPair)) (mint : String)
    (b : LoopBest) (h : pick_best_pool_for_mint resp mint = some b) :
    0 < b.liqUsd := by
  cases resp with
  | none => exact absurd h (by simp [pick_best_pool_for_mint])
  | some pairs =>
    unfold pick_best_pool_for_mint at h
    dsimp only at h
    by_cases hp : pairs.isEmpty
    · rw [if_pos hp] at h
      exact Option.noConfusion h
    · rw [if_neg hp] at h
      exact pickFold_pos_liq mint pairs (none, 0) le_rfl
        (fun b' hb' => Option.noConfusion hb') b h

theorem loop_evaluate_404_iff (resp : Option (List RawPair)) (mint now : String) :
    loop_evaluate resp mint now = Except.error 404
      ↔ (resp = none ∨ ∀ p ∈ resp.getD [], ¬ loopQualifies mint p) := by
  rcases Option.eq_none_or_eq_some (pick_best_pool_for_mint resp mint) with hpb | ⟨b, hpb⟩
  · have hl : loop_evaluate resp mint now = Except.error 404 := by
      unfold loop_evaluate
      rw [hpb]
    exact iff_of_true hl ((pick_best_none_iff resp mint).mp hpb)
  · have hl : loop_evaluate resp mint now = Except.ok
        { symbol := b.symbol
        , mint := mint
        , decimals := 9
        , scoreTotal := score_pool b.pool
        , liquidityUsd := b.liqUsd
        , dexUrl := b.dexUrl
        , pairHint := pairHintOfUrl b.dexUrl
        , risk := if b.liqUsd < 1000 then ["THIN_POOL_HIGH_RUG_RISK"] else []
        , asof := now
        , execution := build_execution_blocks b.liqUsd
        , tpLevelsPct := [50, 100, 200]
        , tpAllocsPct := [25, 50, 25]
        , invalidationDropPct := 25 } := by
      unfold loop_evaluate
      rw [hpb]
    rw [hl]
    exact iff_of_false (fun h => Except.noConfusion h)
      (fun hr => Option.noConfusion
        (hpb.symm.trans ((pick_best_none_iff resp mint).mpr hr)))

theorem survivorFrom_cons (seen : List String) (p : RawPair) (rest : List RawPair) :
    survivorFrom seen (p :: rest) ↔
      (if p.chainId ≠ some "solana" then survivorFrom seen rest
       else
         match (p.baseToken.getD ⟨none, none⟩).address with
         | none => survivorFrom seen rest
         | some a =>
           if a.isEmpty then survivorFrom seen rest
           else if a ∈ seen then survivorFrom seen rest
           else if p.liqUsd.getD 0 ≤ 0 then survivorFrom (a :: seen) rest
           else True) := Iff.rfl

theorem appStep_not_solana (st : List Scored × List String) (p : RawPair)
    (h : p.chainId ≠ some "solana") : appStep st p = st := by
  unfold appStep
  dsimp only
  rw [if_pos h]

theorem appStep_no_addr (st : List Scored × List String) (p : RawPair)
    (h1 : ¬ p.chainId ≠ some "solana")
    (h2 : (p.baseToken.getD ⟨none, none⟩).address = none) : appStep st p = st := by
  unfold appStep
  dsimp only
  rw [if_neg h1, h2]

theorem appStep_some_addr (g : List Scored) (s : List String) (p : RawPair)
    (a : String) (h1 : ¬ p.chainId ≠ some "solana")
    (h2 : (p.baseToken.getD ⟨none, none⟩).address = some a) :
    appStep (g, s) p =
      (if a.isEmpty then (g, s)
       else if a ∈ s then (g, s)
       else if p.liqUsd.getD 0 ≤ 0 then (g, a :: s)
       else (g ++ [⟨p, p.liqUsd.getD 0, p.baseToken.getD ⟨none, none⟩,
              p.quoteToken.getD ⟨none, none⟩,
              appComposite (p.liqUsd.getD 0) (p.vol24.getD 0)
                (p.buys1h.getD 0 - p.sells1h.getD 0), pyStrOr p.url ""⟩],
            a :: s)) := by
  unfold appStep
  dsimp only
  rw [if_neg h1, h2]

theorem appFold_nil_iff (pairs : List RawPair) :
    ∀ (g : List Scored) (s : List String),
      ((pairs.foldl appStep (g, s)).1 = [] ↔ g = [] ∧ ¬ survivorFrom s pairs) := by
  induction pairs with
  | nil =>
    intro g s
    simp [survivorFrom]
  | cons p rest ih =>
    intro g s
    rw [List.foldl_cons]
    by_cases h1 : p.chainId ≠ some "solana"
    · rw [appStep_not_solana (g, s) p h1, ih g s]
      have hs : survivorFrom s (p :: rest) ↔ survivorFrom s rest := by
        rw [survivorFrom_cons, if_pos h1]
      rw [hs]
    · rcases haddr : (p.baseToken.getD ⟨none, none⟩).address with _ | a
      · rw [appStep_no_addr (g, s) p h1 haddr, ih g s]
        have hs : survivorFrom s (p :: rest) ↔ survivorFrom s rest := by
          rw [survivorFrom_cons, if_neg h1, haddr]
        rw [hs]
      · by_cases hemp : a.isEmpty
        · have hstep : appStep (g, s) p = (g, s) := by
            rw [appStep_some_addr g s p a h1 haddr, if_pos hemp]
          rw [hstep, ih g s]
          have hs : survivorFrom s (p :: rest) ↔ survivorFrom s rest := by
            rw [survivorFrom_cons, if_neg h1, haddr]
            dsimp only
            rw [if_pos hemp]
          rw [hs]
        · by_cases hseen : a ∈ s
          · have hstep : appStep (g, s) p = (g, s) := by
              rw [appStep_some_addr g s p a h1 haddr, if_neg hemp, if_pos hseen]
            rw [hstep, ih g s]
            have hs : survivorFrom s (p :: rest) ↔ survivorFrom s rest := by
              rw [survivorFrom_cons, if_neg h1, haddr]
              dsimp only
              rw [if_neg hemp, if_pos hseen]
            rw [hs]
          · by_cases hliq : p.liqUsd.getD 0 ≤ 0
            · have hstep : appStep (g, s) p = (g, a :: s) := by
                rw [appStep_some_addr g s p a h1 haddr, if_neg hemp, if_neg hseen,
                  if_pos hliq]
              rw [hstep, ih g (a :: s)]
              have hs : survivorFrom s (p :: rest) ↔ survivorFrom (a :: s) rest := by
                rw [survivorFrom_cons, if_neg h1, haddr]
                dsimp only
                rw [if_neg hemp, if_neg hseen, if_pos hliq]
              rw [hs]
            · have hstep : appStep (g, s) p =
                  (g ++ [⟨p, p.liqUsd.getD 0, p.baseToken.getD ⟨none, none⟩,
                    p.quoteToken.getD ⟨none, none⟩,
                    appComposite (p.liqUsd.getD 0) (p.vol24.getD 0)
                      (p.buys1h.getD 0 - p.sells1h.getD 0), pyStrOr p.url ""⟩],
                  a :: s) := by
                rw [appStep_some_addr g s p a h1 haddr, if_neg hemp, if_neg hseen,
                  if_neg hliq]
              have hsT : survivorFrom s (p :: rest) := by
                rw [survivorFrom_cons, if_neg h1, haddr]
                dsimp only
                rw [if_neg hemp, if_neg hseen, if_neg hliq]
                trivial
              rw [hstep, ih _ (a :: s)]
              exact iff_of_false (fun h => by simpa using h.1) (fun h => h.2 hsT)

theorem appGood_nil_iff (pairs : List RawPair) :
    appGood pairs = [] ↔ ¬ survivorFrom [] pairs := by
  unfold appGood
  rw [appFold_nil_iff pairs [] []]
  simp

theorem appFold_pos_liq (pairs : List RawPair) :
    ∀ (g : List Scored) (s : List String), (∀ x ∈ g, 0 < x.liqUsd) →
      ∀ x ∈ (pairs.foldl appStep (g, s)).1, 0 < x.liqUsd := by
  induction pairs with
  | nil => intro g s hg x hx; exact hg x hx
  | cons p rest ih =>
    intro g s hg x hx
    rw [List.foldl_cons] at hx
    by_cases h1 : p.chainId ≠ some "solana"
    · rw [appStep_not_solana (g, s) p h1] at hx
      exact ih g s hg x hx
    · rcases haddr : (p.baseToken.getD ⟨none, none⟩).address with _ | a
      · rw [appStep_no_addr (g, s) p h1 haddr] at hx
        exact ih g s hg x hx
      · rw [appStep_some_addr g s p a h1 haddr] at hx
        by_cases hemp : a.isEmpty
        · rw [if_pos hemp] at hx
          exact ih g s hg x hx
        · rw [if_neg hemp] at hx
          by_cases hseen : a ∈ s
          · rw [if_pos hseen] at hx
            exact ih g s hg x hx
          · rw [if_neg hseen] at hx
            by_cases hliq : p.liqUsd.getD 0 ≤ 0
            · rw [if_pos hliq] at hx
              exact ih g (a :: s) hg x hx
            · rw [if_neg hliq] at hx
              refine ih _ (a :: s) ?_ x hx
              intro y hy
              rcases List.mem_append.mp hy with hyg | hyx
              · exact hg y hyg
              · obtain rfl := List.mem_singleton.mp hyx
                exact lt_of_not_le hliq

theorem appGood_pos_liq (pairs : List RawPair) :
    ∀ x ∈ appGood pairs, 0 < x.liqUsd := by
  unfold appGood
  exact appFold_pos_liq pairs [] [] (fun x hx => absurd hx (List.not_mem_nil x))

theorem scoreDescBool_trans : ∀ a b c : Scored,
    scoreDescBool a b → scoreDescBool b c → scoreDescBool a c := by
  intro a b c hab hbc
  simp only [scoreDescBool, decide_eq_true_eq] at hab hbc ⊢
  exact le_trans hbc hab

theorem scoreDescBool_total : ∀ a b : Scored,
    scoreDescBool a b || scoreDescBool b a := by
  intro a b
  simp only [scoreDescBool, Bool.or_eq_true, decide_eq_true_eq]
  exact le_total b.score a.score

theorem fetch_best_none_iff (resp : Option (List RawPair)) :
    fetch_best_pair_for_mint resp = none
      ↔ (resp = none ∨ ¬ survivorFrom [] (resp.getD [])) := by
  cases resp with
  | none => simp [fetch_best_pair_for_mint]
  | some pairs =>
    unfold fetch_best_pair_for_mint
    dsimp only
    by_cases hg : (appGood pairs).isEmpty
    · have hnil : appGood pairs = [] := List.isEmpty_iff.mp hg
      rw [if_pos hg]
      exact iff_of_true rfl (Or.inr ((appGood_nil_iff pairs).mp hnil))
    · rw [if_neg hg]
      have hne : appGood pairs ≠ [] := fun hh => hg (by simp [hh])
      have hms : (appGood pairs).mergeSort scoreDescBool ≠ [] := by
        intro hh
        have hlen := (List.mergeSort_perm (appGood pairs) scoreDescBool).length_eq
        rw [hh] at hlen
        exact hne (List.length_eq_zero.mp hlen.symm)
      constructor
      · intro h
        exact absurd (List.head?_eq_none_iff.mp h) hms
      · rintro (h | h)
        · exact Option.noConfusion h
        · exact absurd ((appGood_nil_iff pairs).mpr h) hne

theorem fetch_best_spec (resp : Option (List RawPair)) (sc : Scored)
    (h : fetch_best_pair_for_mint resp = some sc) :
    sc ∈ appGood (resp.getD [])
      ∧ ∀ q ∈ appGood (resp.getD []), q.score ≤ sc.score := by
  cases resp with
  | none => exact absurd h (by simp [fetch_best_pair_for_mint])
  | some pairs =>
    unfold fetch_best_pair_for_mint at h
    dsimp only at h
    by_cases hg : (appGood pairs).isEmpty
    · rw [if_pos hg] at h
      exact Option.noConfusion h
    · rw [if_neg hg] at h
      have hperm := List.mergeSort_perm (appGood pairs) scoreDescBool
      have hpw := List.sorted_mergeSort scoreDescBool_trans scoreDescBool_total
        (appGood pairs)
      rcases hms : (appGood pairs).mergeSort scoreDescBool with _ | ⟨x, t⟩
      · rw [hms] at h
        exact Option.noConfusion h
      · rw [hms] at h
        have hx : x = sc := by simpa using h
        subst hx
        rw [hms] at hperm hpw
        constructor
        · exact hperm.mem_iff.mp (List.mem_cons_self x t)
        · intro q hq
          have hqL : q ∈ x :: t := hperm.symm.mem_iff.mp hq
          rcases List.mem_cons.mp hqL with rfl | hqt
          · exact le_refl _
          · have hd := (List.pairwise_cons.mp hpw).1 q hqt
            simpa [scoreDescBool, decide_eq_true_eq] using hd

theorem app_evaluate_404_iff (resp : Option (List RawPair)) (mint now : String) :
    app_evaluate resp mint now = Except.error 404
      ↔ (resp = none ∨ ¬ survivorFrom [] (resp.getD [])) := by
  rcases Option.eq_none_or_eq_some (fetch_best_pair_for_mint resp) with hfb | ⟨pr, hfb⟩
  · have hl : app_evaluate resp mint now = Except.error 404 := by
      unfold app_evaluate
      rw [hfb]
    exact iff_of_true hl ((fetch_best_none_iff resp).mp hfb)
  · have hl : app_evaluate resp mint now = Except.ok
        (build_evaluate_response mint (pyStrOr pr.base.symbol "UNK") pr.liqUsd
          pr.url ((pr.quote.symbol.getD "?") ++ " / " ++ (pr.base.symbol.getD "?"))
          pr.score (if pr.liqUsd < 1000 then ["THIN_POOL_HIGH_RUG_RISK"] else [])
          (decide (0 < pr.liqUsd)) (decide (2000 ≤ pr.liqUsd)) 5 1.2 now) := by
      unfold app_evaluate
      rw [hfb]
    rw [hl]
    exact iff_of_false (fun h => Except.noConfusion h)
      (fun hr => Option.noConfusion
        (hfb.symm.trans ((fetch_best_none_iff resp).mpr hr)))

/-- A qualifying Solana pair used as a concrete witness input: base is the
traded coin "WIF" at address "MintW", quoted against SOL, with 2500 USD of
liquidity. -/
def pairW : RawPair :=
  { chainId := some "solana"
  , baseToken := some ⟨some "MintW", some "WIF"⟩
  , quoteToken := some ⟨some "AddrSol", some "SOL"⟩
  , liqUsd := some 2500
  , vol24 := some 40000
  , buys1h := some 12
  , sells1h := some 5
  , url := some "https://dexscreener.com/solana/pairw" }

/-- The annotated record app.py's filter builds from `pairW`. -/
noncomputable def scoredW : Scored :=
  ⟨pairW, 2500, ⟨some "MintW", some "WIF"⟩, ⟨some "AddrSol", some "SOL"⟩,
    appComposite 2500 40000 (12 - 5), "https://dexscreener.com/solana/pairw"⟩

theorem appGood_pairW : appGood [pairW] = [scoredW] := rfl

theorem fetch_best_pairW :
    fetch_best_pair_for_mint (some [pairW]) = some scoredW := by
  unfold fetch_best_pair_for_mint
  dsimp only
  rw [appGood_pairW]
  rw [if_neg (by simp)]
  rw [List.mergeSort_singleton]
  rfl

/-- The card app.py `evaluate` returns for `pairW`. -/
noncomputable def appCardW : AppCard :=
  build_evaluate_response "MintW" (pyStrOr scoredW.base.symbol "UNK") scoredW.liqUsd
    scoredW.url ((scoredW.quote.symbol.getD "?") ++ " / " ++ (scoredW.base.symbol.getD "?"))
    scoredW.score (if scoredW.liqUsd < 1000 then ["THIN_POOL_HIGH_RUG_RISK"] else [])
    (decide (0 < scoredW.liqUsd)) (decide (2000 ≤ scoredW.liqUsd)) 5 1.2 "t0"

theorem app_evaluate_pairW :
    app_evaluate (some [pairW]) "MintW" "t0" = Except.ok appCardW := by
  unfold app_evaluate
  rw [fetch_best_pairW]
  rfl

/-- The best-pool summary loop.py builds from `pairW`. -/
def loopBestW : LoopBest :=
  ⟨pairW, 2500, "WIF", "https://dexscreener.com/solana/pairw"⟩

theorem pick_best_pairW :
    pick_best_pool_for_mint (some [pairW]) "MintW" = some loopBestW := rfl

/-- The card loop.py `evaluate` returns for `pairW`. -/
noncomputable def loopCardW : LoopCard :=
  { symbol := "WIF"
  , mint := "MintW"
  , decimals := 9
  , scoreTotal := score_pool pairW
  , liquidityUsd := 2500
  , dexUrl := "https://dexscreener.com/solana/pairw"
  , pairHint := pairHintOfUrl "https://dexscreener.com/solana/pairw"
  , risk := if (2500:ℚ) < 1000 then ["THIN_POOL_HIGH_RUG_RISK"] else []
  , asof := "t0"
  , execution := build_execution_blocks 2500
  , tpLevelsPct := [50, 100, 200]
  , tpAllocsPct := [25, 50, 25]
  , invalidationDropPct := 25 }

theorem loop_evaluate_pairW :
    loop_evaluate (some [pairW]) "MintW" "t0" = Except.ok loopCardW := by
  unfold loop_evaluate
  rw [pick_best_pairW]
  rfl

/-- A Solana pair at base address "AddrA" with zero liquidity; listed first,
it claims the address in app.py's seen set. -/
def pairShadowZero : RawPair :=
  { chainId := some "solana"
  , baseToken := some ⟨some "AddrA", some "WIF"⟩
  , quoteToken := some ⟨some "AddrSol", some "SOL"⟩
  , liqUsd := some 0
  , vol24 := some 1000
  , buys1h := some 3
  , sells1h := some 1
  , url := some "u1" }

/-- A Solana pair at the same base address "AddrA" with 5000 USD of
liquidity, listed second. -/
def pairShadowPos : RawPair :=
  { chainId := some "solana"
  , baseToken := some ⟨some "AddrA", some "WIF"⟩
  , quoteToken := some ⟨some "AddrSol", some "SOL"⟩
  , liqUsd := some 5000
  , vol24 := some 1000
  , buys1h := some 3
  , sells1h := some 1
  , url := some "u2" }

/-- Claim C6 counterexample: app.py's live evaluate returns 404 on a
response that does contain a qualifying Solana pair (on-chain, nonempty
base address, positive liquidity): the zero-liquidity first occurrence of
the base address claims it in the seen set before the liquidity gate, so
the later qualifying pair with the same address is dropped and the filter
comes out empty. -/
theorem c6_shadowed_qualifying_pair_counterexample :
    app_evaluate (some [pairShadowZero, pairShadowPos]) "AddrA" "t0"
        = Except.error 404
      ∧ pairShadowPos.chainId = some "solana"
      ∧ (pairShadowPos.baseToken.getD ⟨none, none⟩).address = some "AddrA"
      ∧ ("AddrA" : String).isEmpty = false
      ∧ 0 < pairShadowPos.liqUsd.getD 0 := by
  refine ⟨rfl, rfl, rfl, by decide, by decide⟩

/-- Claim C6 (amended): in both variants the live Single-Asset Evaluate
fails with 404 exactly when the fetch fails or no pair survives the
filter, and otherwise returns a card. For loop.py a pair survives exactly
when it is on Solana, its normalized base address is the requested mint
and its liquidity is positive. For app.py a pair survives exactly when it
is on Solana, has a nonempty base address not claimed by an earlier Solana
pair, and positive liquidity — a zero-liquidity first occurrence claims
the address and shadows later same-address pairs (see the counterexample),
and the requested mint is not consulted. -/
theorem c6_evaluate_404_exactly_when_no_survivor :
    (∀ (resp : Option (List RawPair)) (mint now : String),
        app_evaluate resp mint now = Except.error 404
          ↔ (resp = none ∨ ¬ survivorFrom [] (resp.getD [])))
      ∧ (∀ (resp : Option (List RawPair)) (mint now : String),
          loop_evaluate resp mint now = Except.error 404
            ↔ (resp = none ∨ ∀ p ∈ resp.getD [], ¬ loopQualifies mint p))
      ∧ (∀ (resp : Option (List RawPair)) (mint now : String),
          app_evaluate resp mint now = Except.error 404
            ∨ ∃ c, app_evaluate resp mint now = Except.ok c)
      ∧ (∀ (resp : Option (List RawPair)) (mint now : String),
          loop_evaluate resp mint now = Except.error 404
            ∨ ∃ c, loop_evaluate resp mint now = Except.ok c) := by
  refine ⟨app_evaluate_404_iff, loop_evaluate_404_iff, ?_, ?_⟩
  · intro resp mint now
    rcases Option.eq_none_or_eq_some (fetch_best_pair_for_mint resp) with hfb | ⟨pr, hfb⟩
    · left
      unfold app_evaluate
      rw [hfb]
    · have hl : app_evaluate resp mint now = Except.ok
          (build_evaluate_response mint (pyStrOr pr.base.symbol "UNK") pr.liqUsd
            pr.url ((pr.quote.symbol.getD "?") ++ " / " ++ (pr.base.symbol.getD "?"))
            pr.score (if pr.liqUsd < 1000 then ["THIN_POOL_HIGH_RUG_RISK"] else [])
            (decide (0 < pr.liqUsd)) (decide (2000 ≤ pr.liqUsd)) 5 1.2 now) := by
        unfold app_evaluate
        rw [hfb]
      exact Or.inr ⟨_, hl⟩
  · intro resp mint now
    rcases Option.eq_none_or_eq_some (pick_best_pool_for_mint resp mint)
      with hpb | ⟨b, hpb⟩
    · left
      unfold loop_evaluate
      rw [hpb]
    · have hl : loop_evaluate resp mint now = Except.ok
          { symbol := b.symbol
          , mint := mint
          , decimals := 9
          , scoreTotal := score_pool b.pool
          , liquidityUsd := b.liqUsd
          , dexUrl := b.dexUrl
          , pairHint := pairHintOfUrl b.dexUrl
          , risk := if b.liqUsd < 1000 then ["THIN_POOL_HIGH_RUG_RISK"] else []
          , asof := now
          , execution := build_execution_blocks b.liqUsd
          , tpLevelsPct := [50, 100, 200]
          , tpAllocsPct := [25, 50, 25]
          , invalidationDropPct := 25 } := by
        unfold loop_evaluate
        rw [hpb]
      exact Or.inr ⟨_, hl⟩

/-- Claim C7: in app.py's live evaluate, the selected pair is one of the
qualifying (filter-surviving) pairs and maximizes the composite Scorer
score among them. -/
theorem c7_live_evaluate_picks_max_score (resp : Option (List RawPair))
    (sc : Scored) (h : fetch_best_pair_for_mint resp = some sc) :
    sc ∈ appGood (resp.getD [])
      ∧ ∀ q ∈ appGood (resp.getD []), q.score ≤ sc.score :=
  fetch_best_spec resp sc h

/-- Witness for C7 at a concrete single-pair response. -/
theorem c7_live_evaluate_picks_max_score_witness :
    scoredW ∈ appGood [pairW]
      ∧ ∀ q ∈ appGood [pairW], q.score ≤ scoredW.score :=
  c7_live_evaluate_picks_max_score (some [pairW]) scoredW fetch_best_pairW

/-- Claim C10: a successful live evaluate always reports strictly positive
liquidity, its Axiom execution block is always supported (supported iff
liquidity_usd > 0), and its Jupiter block is supported iff
liquidity_usd >= 2000 — in both variants. -/
theorem c10_success_implies_positive_liquidity_and_flags :
    (∀ (resp : Option (List RawPair)) (mint now : String) (c : AppCard),
        app_evaluate resp mint now = Except.ok c →
          0 < c.liquidityUsd ∧ c.axSupported = true
            ∧ (c.jupiterSupported = true ↔ 2000 ≤ c.liquidityUsd))
      ∧ (∀ (resp : Option (List RawPair)) (mint now : String) (c : LoopCard),
          loop_evaluate resp mint now = Except.ok c →
            0 < c.liquidityUsd ∧ c.execution.axBlock.supported = true
              ∧ (c.execution.jupiterBlock.supported = true
                  ↔ 2000 ≤ c.liquidityUsd)) := by
  constructor
  · intro resp mint now c hc
    rcases Option.eq_none_or_eq_some (fetch_best_pair_for_mint resp)
      with hfb | ⟨pr, hfb⟩
    · exfalso
      unfold app_evaluate at hc
      rw [hfb] at hc
      exact Except.noConfusion hc
    · have hpos : 0 < pr.liqUsd := by
        have hmem := (fetch_best_spec resp pr hfb).1
        cases resp with
        | none => exact absurd hfb (by simp [fetch_best_pair_for_mint])
        | some pairs => exact appGood_pos_liq pairs pr hmem
      unfold app_evaluate at hc
      rw [hfb] at hc
      obtain rfl := Except.ok.inj hc
      refine ⟨hpos, decide_eq_true hpos, ?_⟩
      exact ⟨of_decide_eq_true, fun h => decide_eq_true h⟩
  · intro resp mint now c hc
    rcases Option.eq_none_or_eq_some (pick_best_pool_for_mint resp mint)
      with hpb | ⟨b, hpb⟩
    · exfalso
      unfold loop_evaluate at hc
      rw [hpb] at hc
      exact Except.noConfusion hc
    · have hpos : 0 < b.liqUsd := pick_best_pos_liq resp mint b hpb
      unfold loop_evaluate at hc
      rw [hpb] at hc
      obtain rfl := Except.ok.inj hc
      refine ⟨hpos, decide_eq_true hpos, ?_⟩
      exact ⟨of_decide_eq_true, fun h => decide_eq_true h⟩

/-- Witness for C10 at concrete successful evaluations of both variants. -/
theorem c10_success_witness :
    (0 < appCardW.liquidityUsd ∧ appCardW.axSupported = true
        ∧ (appCardW.jupiterSupported = true ↔ 2000 ≤ appCardW.liquidityUsd))
      ∧ (0 < loopCardW.liquidityUsd
        ∧ loopCardW.execution.axBlock.supported = true
        ∧ (loopCardW.execution.jupiterBlock.supported = true
            ↔ 2000 ≤ loopCardW.liquidityUsd)) :=
  ⟨c10_success_implies_positive_liquidity_and_flags.1 (some [pairW]) "MintW" "t0"
      appCardW app_evaluate_pairW,
   c10_success_implies_positive_liquidity_and_flags.2 (some [pairW]) "MintW" "t0"
      loopCardW loop_evaluate_pairW⟩

/-- Witness instantiating the amended C6 at a concrete response. -/
theorem c6_evaluate_404_witness :
    app_evaluate (some [pairShadowZero, pairShadowPos]) "AddrA" "t0"
        = Except.error 404
      ↔ ((some [pairShadowZero, pairShadowPos] : Option (List RawPair)) = none
          ∨ ¬ survivorFrom [] [pairShadowZero, pairShadowPos]) :=
  c6_evaluate_404_exactly_when_no_survivor.1
    (some [pairShadowZero, pairShadowPos]) "AddrA" "t0"
